import Mathlib

/-!
# Bootwarmer debug telemetry: struct layouts and the frame codec

The repository declares the controller's debug record twice, as a packed C
struct named `DebugData`:

* `Bootwarmer/Bootwarmer/DebugData.h`: the legacy record (ten members, the two
  heater powers are `uint8_t`), called v1 below;
* `Bootwarmer/DebugData.h`: the current record (seventeen members, the two
  heater powers are `uint32_t`, plus IMU and temperature), called v2 below.

The first part embeds the two declarations and the C layout rule that gives a
struct its member offsets and its size. The second part models the codec the
specification describes over these layouts.
-/

namespace Bootwarmer

/-! ## C types and struct declarations -/

/-- The three member types that occur in the two `DebugData` declarations. -/
inductive CType where
  | float
  | uint8_t
  | uint32_t
deriving DecidableEq

/-- Storage width in bytes: `float` is IEEE-754 single precision, the two
integer types are the exact-width types of `stdint.h`. -/
def CType.sizeof : CType → Nat
  | .float => 4
  | .uint8_t => 1
  | .uint32_t => 4

/-- Natural alignment of a scalar on the target: its own width. -/
def CType.alignof : CType → Nat
  | .float => 4
  | .uint8_t => 1
  | .uint32_t => 4

/-- Member names of `DebugData`, as spelled in the headers. -/
inductive FieldName where
  | temperatureR
  | errorR
  | integralR
  | derivativeR
  | heaterPowerR
  | temperatureL
  | errorL
  | integralL
  | derivativeL
  | heaterPowerL
  | accelerationX
  | accelerationY
  | accelerationZ
  | gyroX
  | gyroY
  | gyroZ
  | temperature
deriving DecidableEq

/-- One member declaration: `type name;`. -/
structure Member where
  name : FieldName
  type : CType
deriving DecidableEq

/-- A `typedef struct ... { members } Name;` declaration; `packed` records the
presence of `__attribute__((packed))`. -/
structure StructDecl where
  packed : Bool
  members : List Member
deriving DecidableEq

/-- The `DebugData` struct of `Bootwarmer/Bootwarmer/DebugData.h` (lines 7 to
18), the legacy record. -/
def DebugDataV1 : StructDecl where
  packed := true
  members :=
    [ ⟨.temperatureR, .float⟩,
      ⟨.errorR, .float⟩,
      ⟨.integralR, .float⟩,
      ⟨.derivativeR, .float⟩,
      ⟨.heaterPowerR, .uint8_t⟩,
      ⟨.temperatureL, .float⟩,
      ⟨.errorL, .float⟩,
      ⟨.integralL, .float⟩,
      ⟨.derivativeL, .float⟩,
      ⟨.heaterPowerL, .uint8_t⟩ ]

/-- The `DebugData` struct of `Bootwarmer/DebugData.h` (lines 7 to 25), the
current record. -/
def DebugDataV2 : StructDecl where
  packed := true
  members :=
    [ ⟨.temperatureR, .float⟩,
      ⟨.errorR, .float⟩,
      ⟨.integralR, .float⟩,
      ⟨.derivativeR, .float⟩,
      ⟨.heaterPowerR, .uint32_t⟩,
      ⟨.temperatureL, .float⟩,
      ⟨.errorL, .float⟩,
      ⟨.integralL, .float⟩,
      ⟨.derivativeL, .float⟩,
      ⟨.heaterPowerL, .uint32_t⟩,
      ⟨.accelerationX, .float⟩,
      ⟨.accelerationY, .float⟩,
      ⟨.accelerationZ, .float⟩,
      ⟨.gyroX, .float⟩,
      ⟨.gyroY, .float⟩,
      ⟨.gyroZ, .float⟩,
      ⟨.temperature, .float⟩ ]

/-! ## The C layout rule -/

/-- Smallest multiple of `a` that is at least `n`. -/
def alignUp (n a : Nat) : Nat := (n + a - 1) / a * a

/-- Alignment a member is placed at: 1 inside a packed struct, the natural
alignment of its type otherwise. -/
def memberAlign (packed : Bool) (t : CType) : Nat :=
  if packed then 1 else t.alignof

/-- Offsets of the members laid out one after the other from byte `off`: each
member starts at the next multiple of its alignment and occupies its width. -/
def layoutFrom (packed : Bool) : Nat → List Member → List Nat
  | _, [] => []
  | off, m :: ms =>
    alignUp off (memberAlign packed m.type) ::
      layoutFrom packed (alignUp off (memberAlign packed m.type) + m.type.sizeof) ms

/-- First byte after the last member when laying out from byte `off`. -/
def endFrom (packed : Bool) : Nat → List Member → Nat
  | off, [] => off
  | off, m :: ms =>
    endFrom packed (alignUp off (memberAlign packed m.type) + m.type.sizeof) ms

/-- Alignment of the struct: the largest member alignment. -/
def structAlign (s : StructDecl) : Nat :=
  (s.members.map (fun m => memberAlign s.packed m.type)).foldr max 1

/-- Member offsets of a struct, in declaration order. -/
def offsets (s : StructDecl) : List Nat := layoutFrom s.packed 0 s.members

/-- The value of `sizeof(struct)`: the end of the last member rounded up to the
struct alignment. -/
def sizeofStruct (s : StructDecl) : Nat :=
  alignUp (endFrom s.packed 0 s.members) (structAlign s)

/-- Sum of the member widths. -/
def sumWidths (ms : List Member) : Nat := (ms.map (fun m => m.type.sizeof)).sum

/-- Bytes of a struct that belong to no member. -/
def paddingBytes (s : StructDecl) : Nat := sizeofStruct s - sumWidths s.members

/-- The value of `offsetof(struct, name)`, when the struct has such a member. -/
def offsetOf (s : StructDecl) (n : FieldName) : Option Nat :=
  ((s.members.map (fun m => m.name)).zip (offsets s)).lookup n

/-- Declared type of the member called `n`, when the struct has one. -/
def typeOf (s : StructDecl) (n : FieldName) : Option CType :=
  (s.members.map (fun m => (m.name, m.type))).lookup n

/-- The same member list declared without `__attribute__((packed))`: the
naturally aligned struct that the packed one is compared with. -/
def naturallyAligned (s : StructDecl) : StructDecl :=
  { s with packed := false }

/-! ## The frame codec

The headers only declare the two layouts; the host-side `decode` and `encode`
are described by the specification (sections 3, 4.1 and 7) and are modelled
here over the layouts above. A `float` is carried as its 32-bit pattern, which
the codec passes through verbatim. -/

/-- Modelled from the spec: one byte of a raw frame (the transport's byte
buffer is not part of the headers). -/
abbrev Byte := Fin 256

/-- Modelled from the spec: `RawTelemetryFrame`, an immutable sequence of
bytes. -/
abbrev RawTelemetryFrame := List Byte

/-- Modelled from the spec: a 32-bit quantity of the normalized record, either
the IEEE-754 single-precision bit pattern of a `float` member or the value of
a heater-power member widened to the wide unsigned range. -/
abbrev Word32 := Fin 4294967296

/-- Modelled from the spec: `schemaVersion`, one of exactly two values. -/
inductive SchemaVersion where
  | v1
  | v2
deriving DecidableEq

/-- Modelled from the spec: the two error kinds of section 7. -/
inductive CodecError where
  | InvalidFrameLength
  | ValueOutOfRange
deriving DecidableEq

/-- Modelled from the spec: `DecodedTelemetry`, the normalized record of
section 3, a host-side type the headers do not declare. The seven members that only v2 has carry an explicit
not-present marker (`none`). -/
structure DecodedTelemetry where
  schemaVersion : SchemaVersion
  temperatureR : Word32
  errorR : Word32
  integralR : Word32
  derivativeR : Word32
  heaterPowerR : Word32
  temperatureL : Word32
  errorL : Word32
  integralL : Word32
  derivativeL : Word32
  heaterPowerL : Word32
  accelerationX : Option Word32
  accelerationY : Option Word32
  accelerationZ : Option Word32
  gyroX : Option Word32
  gyroY : Option Word32
  gyroZ : Option Word32
  temperature : Option Word32
deriving DecidableEq

/-- Modelled from the spec: the layout a schema version stands for (the
`Layout::V1` and `Layout::V2` of section 9), here the two declarations of the
headers. -/
def layoutOf : SchemaVersion → StructDecl
  | .v1 => DebugDataV1
  | .v2 => DebugDataV2

/-- Modelled from the spec: unsigned little-endian value of a byte string
(section 4.1, byte order). -/
def leValue : List Byte → Nat
  | [] => 0
  | b :: bs => b.val + 256 * leValue bs

/-- Modelled from the spec: the `w` little-endian bytes of `v`, least
significant first (section 4.1, explicit byte order and explicit widths). -/
def leBytes : Nat → Nat → List Byte
  | 0, _ => []
  | w + 1, v => ⟨v % 256, Nat.mod_lt v (by decide)⟩ :: leBytes w (v / 256)

/-- Modelled from the spec: the bytes a member occupies in the frame, from its
offset in the layout and for the width of its type; empty when the layout has
no such member. -/
def memberBytes (s : StructDecl) (frame : RawTelemetryFrame) (n : FieldName) : List Byte :=
  match offsetOf s n, typeOf s n with
  | some off, some t => (frame.drop off).take t.sizeof
  | _, _ => []

/-- Modelled from the spec: a member decoded verbatim as an unsigned
little-endian quantity and widened, without sign extension, to 32 bits. -/
def readWord (s : StructDecl) (frame : RawTelemetryFrame) (n : FieldName) : Word32 :=
  ⟨leValue (memberBytes s frame n) % 4294967296, Nat.mod_lt _ (by decide)⟩

/-- Modelled from the spec: a member that only some versions have; the
not-present marker when the layout has no slot for it. -/
def readOptional (s : StructDecl) (frame : RawTelemetryFrame) (n : FieldName) :
    Option Word32 :=
  match typeOf s n with
  | some _ => some (readWord s frame n)
  | none => none

/-- Modelled from the spec: the version discriminator of section 4.1, a
function of the frame length alone: the length must equal
`sizeof(v1 layout)` or `sizeof(v2 layout)` exactly. -/
def discriminate (len : Nat) : Option SchemaVersion :=
  if len = sizeofStruct DebugDataV1 then some .v1
  else if len = sizeofStruct DebugDataV2 then some .v2
  else none

/-- Modelled from the spec: the layout-specific decode of section 4.1, every
member read from its place in the layout of version `v`. -/
def decodeAs (v : SchemaVersion) (frame : RawTelemetryFrame) : DecodedTelemetry where
  schemaVersion := v
  temperatureR := readWord (layoutOf v) frame .temperatureR
  errorR := readWord (layoutOf v) frame .errorR
  integralR := readWord (layoutOf v) frame .integralR
  derivativeR := readWord (layoutOf v) frame .derivativeR
  heaterPowerR := readWord (layoutOf v) frame .heaterPowerR
  temperatureL := readWord (layoutOf v) frame .temperatureL
  errorL := readWord (layoutOf v) frame .errorL
  integralL := readWord (layoutOf v) frame .integralL
  derivativeL := readWord (layoutOf v) frame .derivativeL
  heaterPowerL := readWord (layoutOf v) frame .heaterPowerL
  accelerationX := readOptional (layoutOf v) frame .accelerationX
  accelerationY := readOptional (layoutOf v) frame .accelerationY
  accelerationZ := readOptional (layoutOf v) frame .accelerationZ
  gyroX := readOptional (layoutOf v) frame .gyroX
  gyroY := readOptional (layoutOf v) frame .gyroY
  gyroZ := readOptional (layoutOf v) frame .gyroZ
  temperature := readOptional (layoutOf v) frame .temperature

/-- Modelled from the spec: the host-side `decode` of section 4.1, which the
headers do not contain: raw bytes, version discriminator, layout-specific
decode, normalized record; all-or-nothing. -/
def decode (frame : RawTelemetryFrame) : Except CodecError DecodedTelemetry :=
  match discriminate frame.length with
  | some v => .ok (decodeAs v frame)
  | none => .error .InvalidFrameLength

/-- Modelled from the spec: the value the record holds for a member, `none`
for a member marked not present. -/
def fieldValue (r : DecodedTelemetry) : FieldName → Option Nat
  | .temperatureR => some r.temperatureR.val
  | .errorR => some r.errorR.val
  | .integralR => some r.integralR.val
  | .derivativeR => some r.derivativeR.val
  | .heaterPowerR => some r.heaterPowerR.val
  | .temperatureL => some r.temperatureL.val
  | .errorL => some r.errorL.val
  | .integralL => some r.integralL.val
  | .derivativeL => some r.derivativeL.val
  | .heaterPowerL => some r.heaterPowerL.val
  | .accelerationX => r.accelerationX.map Fin.val
  | .accelerationY => r.accelerationY.map Fin.val
  | .accelerationZ => r.accelerationZ.map Fin.val
  | .gyroX => r.gyroX.map Fin.val
  | .gyroY => r.gyroY.map Fin.val
  | .gyroZ => r.gyroZ.map Fin.val
  | .temperature => r.temperature.map Fin.val

/-- Modelled from the spec: one member serialized at the width of its declared
type. A value the width cannot represent is reported as `ValueOutOfRange`,
never truncated. The specification names no error for a target slot whose
value is marked not present; the same kind is reported then. -/
def encodeMember (r : DecodedTelemetry) (m : Member) : Except CodecError (List Byte) :=
  match fieldValue r m.name with
  | none => .error .ValueOutOfRange
  | some v =>
    if v < 256 ^ m.type.sizeof then .ok (leBytes m.type.sizeof v)
    else .error .ValueOutOfRange

/-- Modelled from the spec: the members serialized field by field in
declaration order, with no padding; the first failure aborts the encode. -/
def encodeMembers (r : DecodedTelemetry) : List Member → Except CodecError (List Byte)
  | [] => .ok []
  | m :: ms =>
    match encodeMember r m with
    | .error e => .error e
    | .ok bs =>
      match encodeMembers r ms with
      | .error e => .error e
      | .ok rest => .ok (bs ++ rest)

/-- Modelled from the spec: the host-side `encode` of section 4.1, which the
headers do not contain: the record laid out as the packed struct of the target
version. Members the target has no slot for are dropped. -/
def encode (r : DecodedTelemetry) (targetVersion : SchemaVersion) :
    Except CodecError RawTelemetryFrame :=
  encodeMembers r (layoutOf targetVersion).members

/-! ## Scenario frames -/

/-- An all-zero buffer of the given length, the input of the first scenario of
section 8 of the specification. -/
def zeroFrame (len : Nat) : RawTelemetryFrame := List.replicate len 0

/-- The input of the second scenario of section 8 of the specification, laid
out as the v2 struct: a frame whose `heaterPowerR` bytes are 2C 01 00 00 (the
unsigned value 300), every other byte zero. -/
def heater300Frame : RawTelemetryFrame :=
  List.replicate 16 0 ++ [0x2C, 0x01, 0x00, 0x00] ++ List.replicate 48 0

/-- A frame with the v1 layout that carries float bit patterns the codec must
pass through (a quiet NaN 7FC00000, plus infinity 7F800000, minus infinity
FF800000, the subnormal 00000001) and the heater power byte FF on both
channels. -/
def specialsFrame : RawTelemetryFrame :=
  [ 0x00, 0x00, 0xC0, 0x7F,
    0x00, 0x00, 0x80, 0x7F,
    0x00, 0x00, 0x80, 0xFF,
    0x01, 0x00, 0x00, 0x00,
    0xFF,
    0x00, 0x00, 0xC0, 0x7F,
    0x00, 0x00, 0x80, 0x7F,
    0x00, 0x00, 0x80, 0xFF,
    0x01, 0x00, 0x00, 0x00,
    0xFF ]

/-- A frame with the v2 layout whose heater powers fit one byte (200 and 7)
and whose IMU and temperature members are not zero. -/
def narrowableFrame : RawTelemetryFrame :=
  List.replicate 16 0 ++ [200, 0, 0, 0] ++ List.replicate 16 0 ++ [7, 0, 0, 0] ++
    List.replicate 28 9

/-! # Supporting lemmas -/

/-! ## Packed layouts: general facts -/

theorem alignUp_one (n : Nat) : alignUp n 1 = n := by
  simp [alignUp]

theorem endFrom_packed (off : Nat) (ms : List Member) :
    endFrom true off ms = off + sumWidths ms := by
  induction ms generalizing off with
  | nil => simp [endFrom, sumWidths]
  | cons m ms ih =>
    simp only [endFrom, memberAlign, if_true, alignUp_one, ih, sumWidths, List.map_cons,
      List.sum_cons]
    omega

theorem structAlign_packed (s : StructDecl) (h : s.packed = true) : structAlign s = 1 := by
  unfold structAlign
  rw [h]
  induction s.members with
  | nil => rfl
  | cons m ms ih =>
    simp only [List.map_cons, List.foldr_cons, ih]
    simp [memberAlign]

/-- In a packed struct `sizeof` is the sum of the member widths. -/
theorem sizeofStruct_packed (s : StructDecl) (h : s.packed = true) :
    sizeofStruct s = sumWidths s.members := by
  unfold sizeofStruct
  rw [structAlign_packed s h, alignUp_one, h, endFrom_packed]
  omega

/-- In a packed struct every member starts where the previous one ends. -/
theorem layoutFrom_packed (off : Nat) (ms : List Member) :
    layoutFrom true off ms =
      (List.range ms.length).map (fun i => off + sumWidths (ms.take i)) := by
  induction ms generalizing off with
  | nil => rfl
  | cons m ms ih =>
    simp only [layoutFrom, memberAlign, if_true, alignUp_one, ih, List.length_cons,
      List.range_succ_eq_map, List.map_cons, List.map_map, List.take_zero, sumWidths,
      List.map_nil, List.sum_nil, Nat.add_zero, List.cons.injEq, true_and]
    apply List.map_congr_left
    intro i _
    simp only [Function.comp, List.take_succ_cons, List.map_cons, List.sum_cons]
    omega

/-! ## Little-endian byte strings -/

theorem leBytes_leValue (bs : List Byte) : leBytes bs.length (leValue bs) = bs := by
  induction bs with
  | nil => rfl
  | cons b bs ih =>
    have h1 : (b.val + 256 * leValue bs) % 256 = b.val := by omega
    have h2 : (b.val + 256 * leValue bs) / 256 = leValue bs := by omega
    simp only [List.length_cons, leValue, leBytes, h1, h2, ih]

theorem leValue_lt (bs : List Byte) : leValue bs < 256 ^ bs.length := by
  induction bs with
  | nil => simp [leValue]
  | cons b bs ih =>
    simp only [leValue, List.length_cons, pow_succ]
    omega

theorem leValue_leBytes (w v : Nat) : leValue (leBytes w v) = v % 256 ^ w := by
  induction w generalizing v with
  | zero => simp [leBytes, leValue, Nat.mod_one]
  | succ w ih =>
    simp only [leBytes, leValue, ih, pow_succ]
    rw [Nat.mul_comm (256 ^ w) 256, Nat.mod_mul]

theorem sizeof_le_four (t : CType) : t.sizeof ≤ 4 := by
  cases t <;> decide

theorem length_memberBytes_le (s : StructDecl) (frame : RawTelemetryFrame) (n : FieldName) :
    (memberBytes s frame n).length ≤ 4 := by
  unfold memberBytes
  split
  · rename_i off t _ _
    have := sizeof_le_four t
    simp only [List.length_take, List.length_drop]
    omega
  · simp

theorem leValue_memberBytes_lt (s : StructDecl) (frame : RawTelemetryFrame) (n : FieldName) :
    leValue (memberBytes s frame n) < 4294967296 := by
  have h1 := leValue_lt (memberBytes s frame n)
  have h2 := length_memberBytes_le s frame n
  have h3 : 256 ^ (memberBytes s frame n).length ≤ 256 ^ 4 :=
    Nat.pow_le_pow_right (by decide) h2
  have h4 : (256 : Nat) ^ 4 = 4294967296 := by norm_num
  omega

theorem val_readWord (s : StructDecl) (frame : RawTelemetryFrame) (n : FieldName) :
    (readWord s frame n).val = leValue (memberBytes s frame n) := by
  simp only [readWord]
  exact Nat.mod_eq_of_lt (leValue_memberBytes_lt s frame n)

/-! ## Members in a frame -/

theorem memberBytes_v1 (frame : RawTelemetryFrame) (n : FieldName) :
    memberBytes DebugDataV1 frame n =
      match n with
      | .temperatureR => (frame.drop 0).take 4
      | .errorR => (frame.drop 4).take 4
      | .integralR => (frame.drop 8).take 4
      | .derivativeR => (frame.drop 12).take 4
      | .heaterPowerR => (frame.drop 16).take 1
      | .temperatureL => (frame.drop 17).take 4
      | .errorL => (frame.drop 21).take 4
      | .integralL => (frame.drop 25).take 4
      | .derivativeL => (frame.drop 29).take 4
      | .heaterPowerL => (frame.drop 33).take 1
      | _ => [] := by
  cases n <;> rfl

theorem memberBytes_v2 (frame : RawTelemetryFrame) (n : FieldName) :
    memberBytes DebugDataV2 frame n =
      match n with
      | .temperatureR => (frame.drop 0).take 4
      | .errorR => (frame.drop 4).take 4
      | .integralR => (frame.drop 8).take 4
      | .derivativeR => (frame.drop 12).take 4
      | .heaterPowerR => (frame.drop 16).take 4
      | .temperatureL => (frame.drop 20).take 4
      | .errorL => (frame.drop 24).take 4
      | .integralL => (frame.drop 28).take 4
      | .derivativeL => (frame.drop 32).take 4
      | .heaterPowerL => (frame.drop 36).take 4
      | .accelerationX => (frame.drop 40).take 4
      | .accelerationY => (frame.drop 44).take 4
      | .accelerationZ => (frame.drop 48).take 4
      | .gyroX => (frame.drop 52).take 4
      | .gyroY => (frame.drop 56).take 4
      | .gyroZ => (frame.drop 60).take 4
      | .temperature => (frame.drop 64).take 4 := by
  cases n <;> rfl

theorem sizeofStruct_v1 : sizeofStruct DebugDataV1 = 34 := by decide

theorem sizeofStruct_v2 : sizeofStruct DebugDataV2 = 68 := by decide

theorem length_memberBytes (v : SchemaVersion) (frame : RawTelemetryFrame)
    (hlen : frame.length = sizeofStruct (layoutOf v)) (m : Member)
    (hm : m ∈ (layoutOf v).members) :
    (memberBytes (layoutOf v) frame m.name).length = m.type.sizeof := by
  cases v
  · simp only [layoutOf, sizeofStruct_v1] at hlen
    simp only [layoutOf, DebugDataV1, List.mem_cons, List.mem_singleton, List.not_mem_nil,
      or_false] at hm
    rcases hm with rfl | rfl | rfl | rfl | rfl | rfl | rfl | rfl | rfl | rfl <;>
      simp only [layoutOf, memberBytes_v1, List.length_take, List.length_drop, CType.sizeof] <;>
      omega
  · simp only [layoutOf, sizeofStruct_v2] at hlen
    simp only [layoutOf, DebugDataV2, List.mem_cons, List.mem_singleton, List.not_mem_nil,
      or_false] at hm
    rcases hm with rfl | rfl | rfl | rfl | rfl | rfl | rfl | rfl | rfl | rfl | rfl | rfl | rfl |
        rfl | rfl | rfl | rfl <;>
      simp only [layoutOf, memberBytes_v2, List.length_take, List.length_drop, CType.sizeof] <;>
      omega

theorem readOptional_v2 (frame : RawTelemetryFrame) (n : FieldName) :
    readOptional DebugDataV2 frame n = some (readWord DebugDataV2 frame n) := by
  cases n <;> rfl

theorem fieldValue_decodeAs (v : SchemaVersion) (frame : RawTelemetryFrame) (m : Member)
    (hm : m ∈ (layoutOf v).members) :
    fieldValue (decodeAs v frame) m.name = some (leValue (memberBytes (layoutOf v) frame m.name)) := by
  cases v
  · simp only [layoutOf, DebugDataV1, List.mem_cons, List.mem_singleton, List.not_mem_nil,
      or_false] at hm
    rcases hm with rfl | rfl | rfl | rfl | rfl | rfl | rfl | rfl | rfl | rfl <;>
      simp only [fieldValue, decodeAs, val_readWord]
  · simp only [layoutOf, DebugDataV2, List.mem_cons, List.mem_singleton, List.not_mem_nil,
      or_false] at hm
    rcases hm with rfl | rfl | rfl | rfl | rfl | rfl | rfl | rfl | rfl | rfl | rfl | rfl | rfl |
        rfl | rfl | rfl | rfl <;>
      simp only [fieldValue, decodeAs, val_readWord, layoutOf, readOptional_v2, Option.map]

theorem encodeMember_decodeAs (v : SchemaVersion) (frame : RawTelemetryFrame)
    (hlen : frame.length = sizeofStruct (layoutOf v)) (m : Member)
    (hm : m ∈ (layoutOf v).members) :
    encodeMember (decodeAs v frame) m = .ok (memberBytes (layoutOf v) frame m.name) := by
  have hl := length_memberBytes v frame hlen m hm
  have hlt := leValue_lt (memberBytes (layoutOf v) frame m.name)
  have hb := leBytes_leValue (memberBytes (layoutOf v) frame m.name)
  rw [hl] at hlt hb
  simp only [encodeMember, fieldValue_decodeAs v frame m hm, hlt, if_true, hb]

theorem encodeMembers_eq (r : DecodedTelemetry) (f : Member → List Byte) (ms : List Member)
    (h : ∀ m ∈ ms, encodeMember r m = .ok (f m)) :
    encodeMembers r ms = .ok (ms.foldr (fun m acc => f m ++ acc) []) := by
  induction ms with
  | nil => rfl
  | cons m ms ih =>
    have h1 := h m (List.mem_cons_self m ms)
    have h2 := ih (fun x hx => h x (List.mem_cons_of_mem m hx))
    simp only [encodeMembers, h1, h2, List.foldr_cons]

theorem image_v1 (frame : RawTelemetryFrame) (hlen : frame.length = 34) :
    DebugDataV1.members.foldr (fun m acc => memberBytes DebugDataV1 frame m.name ++ acc) []
      = frame := by
  repeat (rcases frame with _ | ⟨_, frame⟩ <;> simp at hlen)
  rfl

theorem image_v2 (frame : RawTelemetryFrame) (hlen : frame.length = 68) :
    DebugDataV2.members.foldr (fun m acc => memberBytes DebugDataV2 frame m.name ++ acc) []
      = frame := by
  repeat (rcases frame with _ | ⟨_, frame⟩ <;> simp at hlen)
  rfl

theorem encode_decodeAs (v : SchemaVersion) (frame : RawTelemetryFrame)
    (hlen : frame.length = sizeofStruct (layoutOf v)) :
    encode (decodeAs v frame) v = .ok frame := by
  unfold encode
  rw [encodeMembers_eq _ (fun m => memberBytes (layoutOf v) frame m.name) _
    (fun m hm => encodeMember_decodeAs v frame hlen m hm)]
  cases v
  · rw [layoutOf, image_v1 frame (by rw [hlen]; rfl)]
  · rw [layoutOf, image_v2 frame (by rw [hlen]; rfl)]

/-! ## Encoding to v1 -/

theorem encodeMember_ok (r : DecodedTelemetry) (m : Member) (v : Nat)
    (hv : fieldValue r m.name = some v) (hlt : v < 256 ^ m.type.sizeof) :
    encodeMember r m = .ok (leBytes m.type.sizeof v) := by
  simp only [encodeMember, hv, hlt, if_true]

theorem encodeMember_error (r : DecodedTelemetry) (m : Member) (v : Nat)
    (hv : fieldValue r m.name = some v) (hlt : 256 ^ m.type.sizeof ≤ v) :
    encodeMember r m = .error .ValueOutOfRange := by
  have : ¬ v < 256 ^ m.type.sizeof := by omega
  simp only [encodeMember, hv, this, if_false]

theorem encode_v1_of_fits (r : DecodedTelemetry)
    (hR : r.heaterPowerR.val ≤ 255) (hL : r.heaterPowerL.val ≤ 255) :
    encode r .v1 = .ok
      (leBytes 4 r.temperatureR.val ++ (leBytes 4 r.errorR.val ++ (leBytes 4 r.integralR.val ++
        (leBytes 4 r.derivativeR.val ++ (leBytes 1 r.heaterPowerR.val ++
        (leBytes 4 r.temperatureL.val ++ (leBytes 4 r.errorL.val ++ (leBytes 4 r.integralL.val ++
        (leBytes 4 r.derivativeL.val ++ (leBytes 1 r.heaterPowerL.val ++ [])))))))))) := by
  have h4 : ∀ w : Word32, w.val < 256 ^ CType.float.sizeof := fun w => w.isLt
  have hR1 : r.heaterPowerR.val < 256 ^ CType.uint8_t.sizeof := by
    show _ < 256; omega
  have hL1 : r.heaterPowerL.val < 256 ^ CType.uint8_t.sizeof := by
    show _ < 256; omega
  simp only [encode, layoutOf, DebugDataV1, encodeMembers,
    encodeMember_ok r ⟨.temperatureR, .float⟩ _ rfl (h4 _),
    encodeMember_ok r ⟨.errorR, .float⟩ _ rfl (h4 _),
    encodeMember_ok r ⟨.integralR, .float⟩ _ rfl (h4 _),
    encodeMember_ok r ⟨.derivativeR, .float⟩ _ rfl (h4 _),
    encodeMember_ok r ⟨.heaterPowerR, .uint8_t⟩ _ rfl hR1,
    encodeMember_ok r ⟨.temperatureL, .float⟩ _ rfl (h4 _),
    encodeMember_ok r ⟨.errorL, .float⟩ _ rfl (h4 _),
    encodeMember_ok r ⟨.integralL, .float⟩ _ rfl (h4 _),
    encodeMember_ok r ⟨.derivativeL, .float⟩ _ rfl (h4 _),
    encodeMember_ok r ⟨.heaterPowerL, .uint8_t⟩ _ rfl hL1]
  rfl

theorem word_of_leBytes4 (w : Word32) (h : leValue (leBytes 4 w.val) % 4294967296 < 4294967296) :
    (⟨leValue (leBytes 4 w.val) % 4294967296, h⟩ : Word32) = w := by
  apply Fin.ext
  have := w.isLt
  simp only [leValue_leBytes]
  omega

theorem word_of_leBytes1 (w : Word32) (hw : w.val ≤ 255)
    (h : leValue (leBytes 1 w.val) % 4294967296 < 4294967296) :
    (⟨leValue (leBytes 1 w.val) % 4294967296, h⟩ : Word32) = w := by
  apply Fin.ext
  simp only [leValue_leBytes]
  omega

theorem decodeAs_v1_encoded (r : DecodedTelemetry)
    (hR : r.heaterPowerR.val ≤ 255) (hL : r.heaterPowerL.val ≤ 255) :
    decodeAs .v1
      (leBytes 4 r.temperatureR.val ++ (leBytes 4 r.errorR.val ++ (leBytes 4 r.integralR.val ++
        (leBytes 4 r.derivativeR.val ++ (leBytes 1 r.heaterPowerR.val ++
        (leBytes 4 r.temperatureL.val ++ (leBytes 4 r.errorL.val ++ (leBytes 4 r.integralL.val ++
        (leBytes 4 r.derivativeL.val ++ (leBytes 1 r.heaterPowerL.val ++ []))))))))))
      = { r with
          schemaVersion := .v1
          accelerationX := none
          accelerationY := none
          accelerationZ := none
          gyroX := none
          gyroY := none
          gyroZ := none
          temperature := none } := by
  have e1 : ∀ (n : FieldName) (fr : RawTelemetryFrame) (w : Word32) (bs : List Byte),
      memberBytes DebugDataV1 fr n = bs → bs = leBytes 4 w.val →
      readWord DebugDataV1 fr n = w := by
    intro n fr w bs h1 h2
    simp only [readWord, h1, h2]
    exact word_of_leBytes4 w _
  have e2 : ∀ (n : FieldName) (fr : RawTelemetryFrame) (w : Word32) (bs : List Byte),
      w.val ≤ 255 → memberBytes DebugDataV1 fr n = bs → bs = leBytes 1 w.val →
      readWord DebugDataV1 fr n = w := by
    intro n fr w bs hw h1 h2
    simp only [readWord, h1, h2]
    exact word_of_leBytes1 w hw _
  simp only [decodeAs, layoutOf, DecodedTelemetry.mk.injEq, true_and]
  refine ⟨e1 _ _ _ _ rfl rfl, e1 _ _ _ _ rfl rfl, e1 _ _ _ _ rfl rfl, e1 _ _ _ _ rfl rfl,
    e2 _ _ _ _ hR rfl rfl, e1 _ _ _ _ rfl rfl, e1 _ _ _ _ rfl rfl, e1 _ _ _ _ rfl rfl,
    e1 _ _ _ _ rfl rfl, e2 _ _ _ _ hL rfl rfl, rfl, rfl, rfl, rfl, rfl, rfl, rfl⟩

/-! ## Decoding by length -/

theorem encodeMember_error_kind (r : DecodedTelemetry) (m : Member) (e : CodecError)
    (h : encodeMember r m = .error e) : e = .ValueOutOfRange := by
  simp only [encodeMember] at h
  split at h
  · simp only [Except.error.injEq] at h
    exact h.symm
  · split at h
    · simp at h
    · simp only [Except.error.injEq] at h
      exact h.symm

theorem encodeMembers_of_member_error (r : DecodedTelemetry) (ms : List Member) (m : Member)
    (hm : m ∈ ms) (h : encodeMember r m = .error .ValueOutOfRange) :
    encodeMembers r ms = .error .ValueOutOfRange := by
  induction ms with
  | nil => simp at hm
  | cons x xs ih =>
    simp only [encodeMembers]
    cases hx : encodeMember r x with
    | error e => simp only [encodeMember_error_kind r x e hx]
    | ok bs =>
      have hmx : m ∈ xs := by
        rcases List.mem_cons.mp hm with rfl | h1
        · rw [h] at hx
          simp at hx
        · exact h1
      simp only [ih hmx]

theorem discriminate_eq (len : Nat) :
    discriminate len = if len = 34 then some .v1 else if len = 68 then some .v2 else none := by
  simp only [discriminate, sizeofStruct_v1, sizeofStruct_v2]

theorem decode_of_length_v1 (frame : RawTelemetryFrame) (h : frame.length = 34) :
    decode frame = .ok (decodeAs .v1 frame) := by
  simp only [decode, discriminate_eq, h, if_true]

theorem decode_of_length_v2 (frame : RawTelemetryFrame) (h : frame.length = 68) :
    decode frame = .ok (decodeAs .v2 frame) := by
  simp [decode, discriminate_eq, h]

theorem decode_of_length_other (frame : RawTelemetryFrame) (h1 : frame.length ≠ 34)
    (h2 : frame.length ≠ 68) : decode frame = .error .InvalidFrameLength := by
  simp [decode, discriminate_eq, h1, h2]

theorem decode_ok_cases (frame : RawTelemetryFrame) (r : DecodedTelemetry)
    (h : decode frame = .ok r) :
    (frame.length = 34 ∧ r = decodeAs .v1 frame) ∨ (frame.length = 68 ∧ r = decodeAs .v2 frame) := by
  by_cases h1 : frame.length = 34
  · rw [decode_of_length_v1 frame h1] at h
    exact Or.inl ⟨h1, (Except.ok.inj h).symm⟩
  · by_cases h2 : frame.length = 68
    · rw [decode_of_length_v2 frame h2] at h
      exact Or.inr ⟨h2, (Except.ok.inj h).symm⟩
    · rw [decode_of_length_other frame h1 h2] at h
      simp at h

theorem leValue_one (a : Byte) : leValue [a] = a.val := by
  simp only [leValue]
  omega

theorem leValue_four (a b c d : Byte) :
    leValue [a, b, c, d] = a.val + 256 * b.val + 65536 * c.val + 16777216 * d.val := by
  simp only [leValue]
  omega

theorem heater_bytes_v1 (frame : RawTelemetryFrame) (hlen : frame.length = 34) :
    leValue (memberBytes DebugDataV1 frame .heaterPowerR) = (frame.getD 16 0).val ∧
    leValue (memberBytes DebugDataV1 frame .heaterPowerL) = (frame.getD 33 0).val := by
  repeat (rcases frame with _ | ⟨_, frame⟩ <;> simp at hlen)
  exact ⟨leValue_one _, leValue_one _⟩

theorem heater_bytes_v2 (frame : RawTelemetryFrame) (hlen : frame.length = 68) :
    leValue (memberBytes DebugDataV2 frame .heaterPowerR) =
      (frame.getD 16 0).val + 256 * (frame.getD 17 0).val +
        65536 * (frame.getD 18 0).val + 16777216 * (frame.getD 19 0).val ∧
    leValue (memberBytes DebugDataV2 frame .heaterPowerL) =
      (frame.getD 36 0).val + 256 * (frame.getD 37 0).val +
        65536 * (frame.getD 38 0).val + 16777216 * (frame.getD 39 0).val := by
  repeat (rcases frame with _ | ⟨_, frame⟩ <;> simp at hlen)
  exact ⟨leValue_four _ _ _ _, leValue_four _ _ _ _⟩

/-! # The claims -/

/-! ## The two layouts -/

/-- C1, as stated, fails: the packed v1 `DebugData` (heater powers `uint8_t`)
is not 38 bytes long. -/
theorem v1_size_is_not_38 : sizeofStruct DebugDataV1 ≠ 38 := by decide

/-- C1, amended: the packed v1 `DebugData` has ten members, its size is exactly
34 bytes, that is the sum of the ten member widths (eight `float` of 4 bytes
and two `uint8_t` of 1 byte), and no byte of it is padding. -/
theorem v1_size :
    DebugDataV1.packed = true ∧
    DebugDataV1.members.length = 10 ∧
    DebugDataV1.members.map (fun m => m.type.sizeof) = [4, 4, 4, 4, 1, 4, 4, 4, 4, 1] ∧
    sizeofStruct DebugDataV1 = 34 ∧
    sizeofStruct DebugDataV1 = sumWidths DebugDataV1.members ∧
    paddingBytes DebugDataV1 = 0 := by
  decide

/-- C2, as stated, fails: the packed v2 `DebugData` (heater powers `uint32_t`,
with IMU and temperature) is not 76 bytes long. -/
theorem v2_size_is_not_76 : sizeofStruct DebugDataV2 ≠ 76 := by decide

/-- C2, amended: the packed v2 `DebugData` has seventeen members, its size is
exactly 68 bytes, that is the sum of the seventeen member widths (4 bytes
each), and no byte of it is padding. -/
theorem v2_size :
    DebugDataV2.packed = true ∧
    DebugDataV2.members.length = 17 ∧
    DebugDataV2.members.map (fun m => m.type.sizeof) =
      [4, 4, 4, 4, 4, 4, 4, 4, 4, 4, 4, 4, 4, 4, 4, 4, 4] ∧
    sizeofStruct DebugDataV2 = 68 ∧
    sizeofStruct DebugDataV2 = sumWidths DebugDataV2.members ∧
    paddingBytes DebugDataV2 = 0 := by
  decide

/-- C3: the v1 `DebugData` declares exactly temperatureR, errorR, integralR,
derivativeR (float), heaterPowerR (uint8_t), temperatureL, errorL, integralL,
derivativeL (float), heaterPowerL (uint8_t), in that order; the offset of every
member is the sum of the widths of the members declared before it; so
heaterPowerR is at offset 16, temperatureL at 17, and heaterPowerL, one byte
wide, is the last byte of the struct. -/
theorem v1_fields_and_offsets :
    DebugDataV1.members.map (fun m => (m.name, m.type)) =
      [ (.temperatureR, .float), (.errorR, .float), (.integralR, .float),
        (.derivativeR, .float), (.heaterPowerR, .uint8_t),
        (.temperatureL, .float), (.errorL, .float), (.integralL, .float),
        (.derivativeL, .float), (.heaterPowerL, .uint8_t) ] ∧
    offsets DebugDataV1 =
      (List.range DebugDataV1.members.length).map
        (fun i => sumWidths (DebugDataV1.members.take i)) ∧
    offsets DebugDataV1 = [0, 4, 8, 12, 16, 17, 21, 25, 29, 33] ∧
    offsetOf DebugDataV1 .heaterPowerR = some 16 ∧
    offsetOf DebugDataV1 .temperatureL = some 17 ∧
    offsetOf DebugDataV1 .heaterPowerL = some (sizeofStruct DebugDataV1 - 1) ∧
    (typeOf DebugDataV1 .heaterPowerL).map CType.sizeof = some 1 := by
  decide

/-- C4: the v2 `DebugData` declares exactly temperatureR, errorR, integralR,
derivativeR (float), heaterPowerR (uint32_t), temperatureL, errorL, integralL,
derivativeL (float), heaterPowerL (uint32_t), accelerationX, accelerationY,
accelerationZ, gyroX, gyroY, gyroZ, temperature (float), in that order; the
offset of every member is the sum of the widths of the members declared before
it; so heaterPowerR is at offset 16, temperatureL at 20, heaterPowerL at 36,
accelerationX at 40, and temperature, four bytes wide, occupies the last four
bytes of the struct. -/
theorem v2_fields_and_offsets :
    DebugDataV2.members.map (fun m => (m.name, m.type)) =
      [ (.temperatureR, .float), (.errorR, .float), (.integralR, .float),
        (.derivativeR, .float), (.heaterPowerR, .uint32_t),
        (.temperatureL, .float), (.errorL, .float), (.integralL, .float),
        (.derivativeL, .float), (.heaterPowerL, .uint32_t),
        (.accelerationX, .float), (.accelerationY, .float), (.accelerationZ, .float),
        (.gyroX, .float), (.gyroY, .float), (.gyroZ, .float), (.temperature, .float) ] ∧
    offsets DebugDataV2 =
      (List.range DebugDataV2.members.length).map
        (fun i => sumWidths (DebugDataV2.members.take i)) ∧
    offsets DebugDataV2 = [0, 4, 8, 12, 16, 20, 24, 28, 32, 36, 40, 44, 48, 52, 56, 60, 64] ∧
    offsetOf DebugDataV2 .heaterPowerR = some 16 ∧
    offsetOf DebugDataV2 .temperatureL = some 20 ∧
    offsetOf DebugDataV2 .heaterPowerL = some 36 ∧
    offsetOf DebugDataV2 .accelerationX = some 40 ∧
    offsetOf DebugDataV2 .temperature = some (sizeofStruct DebugDataV2 - 4) ∧
    (typeOf DebugDataV2 .temperature).map CType.sizeof = some 4 := by
  decide

/-! ## Round trip -/

/-- C7: for every frame that decodes, with version `v`, encoding the decoded
record to version `v` gives back the original byte sequence, and decoding that
result reproduces the decoded record exactly: the same 32-bit pattern in every
float member, NaN and infinity patterns included, and the same value in both
heater-power members. -/
theorem roundtrip (frame : RawTelemetryFrame) (r : DecodedTelemetry)
    (h : decode frame = .ok r) :
    encode r r.schemaVersion = .ok frame ∧
    ∃ out, encode r r.schemaVersion = .ok out ∧ decode out = .ok r := by
  have key : encode r r.schemaVersion = .ok frame := by
    rcases decode_ok_cases frame r h with ⟨hl, rfl⟩ | ⟨hl, rfl⟩
    · exact encode_decodeAs .v1 frame (by rw [hl]; exact sizeofStruct_v1.symm)
    · exact encode_decodeAs .v2 frame (by rw [hl]; exact sizeofStruct_v2.symm)
  exact ⟨key, frame, key, h⟩

/-- Witness for C7: the round trip of a v1 frame carrying NaN, infinities and
a subnormal. -/
theorem roundtrip_witness :
    decode specialsFrame = .ok (decodeAs .v1 specialsFrame) ∧
    (decodeAs .v1 specialsFrame).temperatureR.val = 0x7FC00000 ∧
    encode (decodeAs .v1 specialsFrame) (decodeAs .v1 specialsFrame).schemaVersion
      = .ok specialsFrame ∧
    ∃ out, encode (decodeAs .v1 specialsFrame) (decodeAs .v1 specialsFrame).schemaVersion
      = .ok out ∧ decode out = .ok (decodeAs .v1 specialsFrame) :=
  ⟨rfl, by decide, roundtrip specialsFrame (decodeAs .v1 specialsFrame) rfl⟩

/-! ## Heater power: range and widening -/

/-- C8: for every record, encoding to v1 fails with `ValueOutOfRange`, and so
emits no bytes, whenever heaterPowerR or heaterPowerL exceeds 255, the maximum
of the one-byte `uint8_t` heater-power member of v1; the value is never
truncated. -/
theorem encode_v1_rejects (r : DecodedTelemetry)
    (h : 255 < r.heaterPowerR.val ∨ 255 < r.heaterPowerL.val) :
    encode r .v1 = .error .ValueOutOfRange ∧
    (∀ out, encode r .v1 ≠ .ok out) ∧
    typeOf DebugDataV1 .heaterPowerR = some .uint8_t ∧
    typeOf DebugDataV1 .heaterPowerL = some .uint8_t ∧
    256 ^ CType.uint8_t.sizeof - 1 = 255 := by
  have key : encode r .v1 = .error .ValueOutOfRange := by
    rcases h with h | h
    · exact encodeMembers_of_member_error r _ ⟨.heaterPowerR, .uint8_t⟩ (by decide)
        (encodeMember_error r ⟨.heaterPowerR, .uint8_t⟩ _ rfl (by show 256 ≤ _; omega))
    · exact encodeMembers_of_member_error r _ ⟨.heaterPowerL, .uint8_t⟩ (by decide)
        (encodeMember_error r ⟨.heaterPowerL, .uint8_t⟩ _ rfl (by show 256 ≤ _; omega))
  refine ⟨key, ?_, rfl, rfl, rfl⟩
  intro out hout
  rw [key] at hout
  simp at hout

/-- Witness for C8: the v2 frame whose heaterPowerR bytes are 2C 01 00 00
decodes to a record with heaterPowerR = 300, which the `uint32_t` member of v2
represents (the record encodes back to the same v2 frame) and which is rejected
when encoded to v1. -/
theorem encode_v1_rejects_witness :
    decode heater300Frame = .ok (decodeAs .v2 heater300Frame) ∧
    (decodeAs .v2 heater300Frame).heaterPowerR.val = 300 ∧
    typeOf DebugDataV2 .heaterPowerR = some .uint32_t ∧
    encode (decodeAs .v2 heater300Frame) .v2 = .ok heater300Frame ∧
    encode (decodeAs .v2 heater300Frame) .v1 = .error .ValueOutOfRange :=
  ⟨rfl, by decide, rfl, encode_decodeAs .v2 heater300Frame (by decide),
    (encode_v1_rejects (decodeAs .v2 heater300Frame) (Or.inl (by decide))).1⟩

/-- C9: heater-power members decode as unsigned little-endian integers widened
without sign extension: for every v1 frame the decoded heaterPowerR is the
byte at offset 16 (heaterPowerL the byte at offset 33), a value from 0 to 255;
for every v2 frame the decoded heaterPowerR is b16 + 256*b17 + 65536*b18 +
16777216*b19 of the bytes at offsets 16 to 19 (heaterPowerL likewise from
offsets 36 to 39); both ranges fit the normalized 32-bit type, so nothing is
truncated. -/
theorem heaterPower_decode (frame : RawTelemetryFrame) :
    (frame.length = sizeofStruct DebugDataV1 →
      ∃ r, decode frame = .ok r ∧
        r.heaterPowerR.val = (frame.getD 16 0).val ∧
        r.heaterPowerL.val = (frame.getD 33 0).val ∧
        r.heaterPowerR.val ≤ 255 ∧ r.heaterPowerL.val ≤ 255) ∧
    (frame.length = sizeofStruct DebugDataV2 →
      ∃ r, decode frame = .ok r ∧
        r.heaterPowerR.val =
          (frame.getD 16 0).val + 256 * (frame.getD 17 0).val +
            65536 * (frame.getD 18 0).val + 16777216 * (frame.getD 19 0).val ∧
        r.heaterPowerL.val =
          (frame.getD 36 0).val + 256 * (frame.getD 37 0).val +
            65536 * (frame.getD 38 0).val + 16777216 * (frame.getD 39 0).val) ∧
    256 ^ CType.uint8_t.sizeof ≤ 4294967296 ∧ 256 ^ CType.uint32_t.sizeof ≤ 4294967296 := by
  refine ⟨fun h => ?_, fun h => ?_, by decide, by decide⟩
  · rw [sizeofStruct_v1] at h
    have hb := heater_bytes_v1 frame h
    have h16 := (frame.getD 16 0).isLt
    have h33 := (frame.getD 33 0).isLt
    refine ⟨decodeAs .v1 frame, decode_of_length_v1 frame h, ?_, ?_, ?_, ?_⟩ <;>
      simp only [decodeAs, layoutOf, val_readWord, hb.1, hb.2] <;> omega
  · rw [sizeofStruct_v2] at h
    have hb := heater_bytes_v2 frame h
    refine ⟨decodeAs .v2 frame, decode_of_length_v2 frame h, ?_, ?_⟩ <;>
      simp only [decodeAs, layoutOf, val_readWord, hb.1, hb.2]

/-- Witness for C9: in a v1 frame the byte FF at offset 16 decodes to 255, and
in a v2 frame the bytes 2C 01 00 00 at offsets 16 to 19 decode to 300. -/
theorem heaterPower_decode_witness :
    (specialsFrame.length = sizeofStruct DebugDataV1 ∧
      specialsFrame.getD 16 0 = 0xFF ∧
      ∃ r, decode specialsFrame = .ok r ∧
        r.heaterPowerR.val = (specialsFrame.getD 16 0).val ∧
        r.heaterPowerL.val = (specialsFrame.getD 33 0).val ∧
        r.heaterPowerR.val ≤ 255 ∧ r.heaterPowerL.val ≤ 255) ∧
    (decodeAs .v1 specialsFrame).heaterPowerR.val = 255 ∧
    (heater300Frame.length = sizeofStruct DebugDataV2 ∧
      (heater300Frame.drop 16).take 4 = [0x2C, 0x01, 0x00, 0x00] ∧
      (decodeAs .v2 heater300Frame).heaterPowerR.val = 300 ∧
      ∃ r, decode heater300Frame = .ok r ∧
        r.heaterPowerR.val =
          (heater300Frame.getD 16 0).val + 256 * (heater300Frame.getD 17 0).val +
            65536 * (heater300Frame.getD 18 0).val +
            16777216 * (heater300Frame.getD 19 0).val ∧
        r.heaterPowerL.val =
          (heater300Frame.getD 36 0).val + 256 * (heater300Frame.getD 37 0).val +
            65536 * (heater300Frame.getD 38 0).val +
            16777216 * (heater300Frame.getD 39 0).val) :=
  ⟨⟨by decide, by decide, (heaterPower_decode specialsFrame).1 (by decide)⟩, by decide,
    ⟨by decide, by decide, by decide, (heaterPower_decode heater300Frame).2.1 (by decide)⟩⟩

/-! ## Narrowing -/

/-- C10: for every record decoded from a v2 frame whose two heater-power values
are at most 255, encoding to v1 succeeds; the result has exactly the size of
the v1 layout and decodes to the record with its ten shared members unchanged
and the seven others absent. The v1 member list is the v2 member list with its
seven trailing members (accelerationX/Y/Z, gyroX/Y/Z, temperature) removed,
same names in the same order, and the only members whose type differs are
heaterPowerR and heaterPowerL (`uint8_t` in v1, `uint32_t` in v2). -/
theorem narrowing (frame : RawTelemetryFrame) (r : DecodedTelemetry)
    (hlen : frame.length = sizeofStruct DebugDataV2) (h : decode frame = .ok r)
    (hR : r.heaterPowerR.val ≤ 255) (hL : r.heaterPowerL.val ≤ 255) :
    (∃ out, encode r .v1 = .ok out ∧ out.length = sizeofStruct DebugDataV1 ∧
      decode out = .ok
        { r with
          schemaVersion := .v1
          accelerationX := none
          accelerationY := none
          accelerationZ := none
          gyroX := none
          gyroY := none
          gyroZ := none
          temperature := none }) ∧
    r.schemaVersion = .v2 ∧
    DebugDataV2.members.map (fun m => m.name) =
      DebugDataV1.members.map (fun m => m.name) ++
        [.accelerationX, .accelerationY, .accelerationZ, .gyroX, .gyroY, .gyroZ,
          .temperature] ∧
    (DebugDataV1.members.zip DebugDataV2.members).filter (fun p => decide (p.1 ≠ p.2)) =
      [ (⟨.heaterPowerR, .uint8_t⟩, ⟨.heaterPowerR, .uint32_t⟩),
        (⟨.heaterPowerL, .uint8_t⟩, ⟨.heaterPowerL, .uint32_t⟩) ] := by
  refine ⟨?_, ?_, by decide, by decide⟩
  · have hlen1 : (leBytes 4 r.temperatureR.val ++ (leBytes 4 r.errorR.val ++
        (leBytes 4 r.integralR.val ++ (leBytes 4 r.derivativeR.val ++
        (leBytes 1 r.heaterPowerR.val ++ (leBytes 4 r.temperatureL.val ++
        (leBytes 4 r.errorL.val ++ (leBytes 4 r.integralL.val ++
        (leBytes 4 r.derivativeL.val ++ (leBytes 1 r.heaterPowerL.val ++ [])))))))))).length
          = 34 := rfl
    refine ⟨_, encode_v1_of_fits r hR hL, by rw [hlen1, sizeofStruct_v1], ?_⟩
    rw [decode_of_length_v1 _ hlen1, decodeAs_v1_encoded r hR hL]
  · rw [sizeofStruct_v2] at hlen
    rw [decode_of_length_v2 frame hlen] at h
    rw [← Except.ok.inj h]
    rfl

/-- Witness for C10: a v2 frame with heater powers 200 and 7 and with IMU and
temperature members that are not zero narrows to v1. -/
theorem narrowing_witness :
    narrowableFrame.length = sizeofStruct DebugDataV2 ∧
    decode narrowableFrame = .ok (decodeAs .v2 narrowableFrame) ∧
    (decodeAs .v2 narrowableFrame).heaterPowerR.val = 200 ∧
    (decodeAs .v2 narrowableFrame).heaterPowerL.val = 7 ∧
    (decodeAs .v2 narrowableFrame).gyroZ ≠ some 0 ∧
    ∃ out, encode (decodeAs .v2 narrowableFrame) .v1 = .ok out ∧
      out.length = sizeofStruct DebugDataV1 ∧
      decode out = .ok
        { decodeAs .v2 narrowableFrame with
          schemaVersion := .v1
          accelerationX := none
          accelerationY := none
          accelerationZ := none
          gyroX := none
          gyroY := none
          gyroZ := none
          temperature := none } :=
  ⟨by decide, rfl, by decide, by decide, by decide,
    (narrowing narrowableFrame (decodeAs .v2 narrowableFrame) (by decide) rfl
      (by decide) (by decide)).1⟩

/-! ## Packed against naturally aligned -/

/-- C11: the packed attribute changes the v1 layout but not the v2 layout. In
v2 every packed member offset is a multiple of 4, and the naturally aligned
layout of the same member list has the same offsets and the same total size.
In v1 the four left-channel floats sit at the packed offsets 17, 21, 25, 29,
none a multiple of 4, and the naturally aligned layout of the v1 member list
differs from the packed one both in its offsets (20, 24, 28, 32 for those
floats, 36 for heaterPowerL) and in its total size (40 against 34). -/
theorem packed_against_natural :
    (∀ o ∈ offsets DebugDataV2, o % 4 = 0) ∧
    offsets (naturallyAligned DebugDataV2) = offsets DebugDataV2 ∧
    sizeofStruct (naturallyAligned DebugDataV2) = sizeofStruct DebugDataV2 ∧
    [ offsetOf DebugDataV1 .temperatureL, offsetOf DebugDataV1 .errorL,
      offsetOf DebugDataV1 .integralL, offsetOf DebugDataV1 .derivativeL ] =
      [some 17, some 21, some 25, some 29] ∧
    17 % 4 ≠ 0 ∧ 21 % 4 ≠ 0 ∧ 25 % 4 ≠ 0 ∧ 29 % 4 ≠ 0 ∧
    offsets DebugDataV1 = [0, 4, 8, 12, 16, 17, 21, 25, 29, 33] ∧
    offsets (naturallyAligned DebugDataV1) = [0, 4, 8, 12, 16, 20, 24, 28, 32, 36] ∧
    offsets (naturallyAligned DebugDataV1) ≠ offsets DebugDataV1 ∧
    sizeofStruct DebugDataV1 = 34 ∧
    sizeofStruct (naturallyAligned DebugDataV1) = 40 ∧
    sizeofStruct (naturallyAligned DebugDataV1) ≠ sizeofStruct DebugDataV1 ∧
    (naturallyAligned DebugDataV1).members = DebugDataV1.members ∧
    (naturallyAligned DebugDataV2).members = DebugDataV2.members := by
  decide

/-! ## Length as the only discriminator -/

/-- C12: the two packed layout sizes are distinct, so no frame has the length
of both layouts; but the v2 size is exactly twice the v1 size, so the
concatenation of any two v1 frames has precisely the length of a v2 frame, and
not that of a v1 frame. -/
theorem two_v1_frames_have_v2_length (f g : RawTelemetryFrame)
    (hf : f.length = sizeofStruct DebugDataV1) (hg : g.length = sizeofStruct DebugDataV1) :
    sizeofStruct DebugDataV1 ≠ sizeofStruct DebugDataV2 ∧
    (∀ h : RawTelemetryFrame,
      ¬ (h.length = sizeofStruct DebugDataV1 ∧ h.length = sizeofStruct DebugDataV2)) ∧
    sizeofStruct DebugDataV2 = 2 * sizeofStruct DebugDataV1 ∧
    (f ++ g).length = sizeofStruct DebugDataV2 ∧
    (f ++ g).length ≠ sizeofStruct DebugDataV1 := by
  rw [List.length_append, hf, hg, sizeofStruct_v1, sizeofStruct_v2]
  refine ⟨by decide, ?_, by decide, by decide, by decide⟩
  intro h hh
  omega

/-- Witness for C12: two v1 frames put one after the other. -/
theorem two_v1_frames_have_v2_length_witness :
    specialsFrame.length = sizeofStruct DebugDataV1 ∧
    (zeroFrame 34).length = sizeofStruct DebugDataV1 ∧
    (specialsFrame ++ zeroFrame 34).length = sizeofStruct DebugDataV2 ∧
    (specialsFrame ++ zeroFrame 34).length ≠ sizeofStruct DebugDataV1 :=
  ⟨by decide, by decide,
    (two_v1_frames_have_v2_length specialsFrame (zeroFrame 34) (by decide) (by decide)).2.2.2⟩

end Bootwarmer
